import Mathlib

/-!
Verification development for the card prediction engine
(`card_predictor.py` plus its caller in `handlers.py`).

Message texts are modelled as lists of Unicode scalar values (`List Char`).
Multi-codepoint glyphs such as the suit symbols ("♠️" = U+2660 U+FE0F) are
modelled as the exact codepoint sequences the Python source manipulates, so
substring membership, counting and replacement coincide with Python's
`in`, `str.count` and `str.replace` on those strings.
-/

abbrev Text := List Char

/-- U+FE0F, the variation selector that ends each suit glyph. -/
def vs16 : Char := '\uFE0F'

/-- U+20E3, the combining enclosing keycap used by the coloured digit glyphs. -/
def keycap : Char := '\u20E3'

def spade : Text := ['♠', vs16]

def heart : Text := ['♥', vs16]

def diamond : Text := ['♦', vs16]

def club : Text := ['♣', vs16]

/-- "❤️", the heart variant normalised to `heart` before any comparison. -/
def redHeart : Text := ['❤', vs16]

/-- The iteration order `["♠️", "♥️", "♦️", "♣️"]` used by the source. -/
def suitSymbols : List Text := [spade, heart, diamond, club]

/-- Python `pat in s` (substring membership). -/
def containsSub (s pat : Text) : Bool :=
  match s with
  | [] => pat.isEmpty
  | _ :: rest => pat.isPrefixOf s || containsSub rest pat

/-- Python `s.count(pat)`: non-overlapping occurrences, scanned left to
right.  The fuel argument (initially `s.length`) only bounds the
recursion; every step consumes at least one character of `s`, so
`s.length` steps always suffice.  The patterns used by the source are the
non-empty two-codepoint suit glyphs. -/
def countSubAux : Nat → Text → Text → Nat
  | 0, _, _ => 0
  | _ + 1, [], _ => 0
  | fuel + 1, c :: rest, pat =>
    if pat.isPrefixOf (c :: rest) ∧ ¬ pat.isEmpty then
      1 + countSubAux fuel ((c :: rest).drop pat.length) pat
    else
      countSubAux fuel rest pat

def countSub (s pat : Text) : Nat := countSubAux s.length s pat

/-- Python `s.replace(pat, repl)`: every non-overlapping occurrence,
scanned left to right.  Fuel as in `countSubAux`. -/
def replaceSubAux : Nat → Text → Text → Text → Text
  | 0, s, _, _ => s
  | _ + 1, [], _, _ => []
  | fuel + 1, c :: rest, pat, repl =>
    if pat.isPrefixOf (c :: rest) ∧ ¬ pat.isEmpty then
      repl ++ replaceSubAux fuel ((c :: rest).drop pat.length) pat repl
    else
      c :: replaceSubAux fuel rest pat repl

def replaceSub (s pat repl : Text) : Text := replaceSubAux s.length s pat repl

def digitsToNat (ds : List Char) : Nat :=
  ds.foldl (fun acc c => 10 * acc + (c.toNat - '0'.toNat)) 0

/-- `extract_game_number` (`card_predictor.py` lines 46-52):
`re.search(r'#[nN](\d+)', message)`, i.e. the leftmost occurrence of `#`
followed by `n` or `N` followed by a maximal non-empty run of digits;
returns that run read as a decimal integer.  (`\d` is modelled as the
ASCII digits, the only digits the channel's messages use.) -/
def extractGameNumber : Text → Option Nat
  | [] => none
  | c :: rest =>
    if c = '#' then
      match rest with
      | d :: rest2 =>
        if d = 'n' ∨ d = 'N' then
          let digits := rest2.takeWhile (·.isDigit)
          if digits.isEmpty then extractGameNumber rest
          else some (digitsToNat digits)
        else extractGameNumber rest
      | [] => none
    else extractGameNumber rest

/-- State machine equivalent of `re.findall(r'\(([^)]+)\)', text)`: the
accumulator holds the (reversed) content of an open `(` while one is
pending.  An empty pair `()` is not a match, exactly as for the regex,
whose group requires at least one non-`)` character. -/
def findParensAux : Text → Option Text → List Text
  | [], _ => []
  | c :: rest, none =>
    if c = '(' then findParensAux rest (some []) else findParensAux rest none
  | c :: rest, some acc =>
    if c = ')' then
      if acc.isEmpty then findParensAux rest none
      else acc.reverse :: findParensAux rest none
    else findParensAux rest (some (c :: acc))

/-- Contents of every `(...)` match, in left-to-right order. -/
def findParenSections (t : Text) : List Text := findParensAux t none

/-- Body of the per-section loop of `extract_card_symbols_from_parentheses`
(lines 87-97): normalise `❤️` to `♥️`, then record which of the four suit
glyphs occur.  The result is the section's set of distinct suits,
represented as the sublist of `suitSymbols` that occur (its length is the
number of distinct suits; the source only uses the length and the sorted
join of this set). -/
def sectionSuits (content : Text) : List Text :=
  let normalized := replaceSub content redHeart heart
  suitSymbols.filter (fun sym => containsSub normalized sym)

/-- `extract_card_symbols_from_parentheses` (lines 80-99). -/
def extractCardSymbolsFromParentheses (t : Text) : List (List Text) :=
  (findParenSections t).map sectionSuits

/-- `''.join(sorted(symbols))`: Python sorts the glyph strings
lexicographically by codepoint, and ♠ (U+2660) < ♣ (U+2663) < ♥ (U+2665)
< ♦ (U+2666), each followed by U+FE0F.  For a set of distinct suits this
equals filtering the codepoint-ascending enumeration. -/
def sortedSuitOrder : List Text := [spade, club, heart, diamond]

def joinSortedSuits (syms : List Text) : Text :=
  (sortedSuitOrder.filter (fun t => syms.contains t)).flatten

/-- `count_cards_in_first_parentheses` (lines 279-295): total (not
deduplicated) suit-glyph occurrences inside the first `(...)` span, `0`
if there is none. -/
def countCardsInFirstParentheses (t : Text) : Nat :=
  match findParenSections t with
  | [] => 0
  | first :: _ =>
    let normalized := replaceSub first redHeart heart
    (suitSymbols.map (fun sym => countSub normalized sym)).sum

/-- `has_pending_indicators` (lines 59-62): `['⏰', '▶', '🕐', '➡️']`. -/
def hasPendingIndicators (t : Text) : Bool :=
  containsSub t ['⏰'] || containsSub t ['▶'] || containsSub t ['🕐'] ||
    containsSub t ['➡', vs16]

/-- `has_completion_indicators` (lines 64-67): `['✅', '🔰']`. -/
def hasCompletionIndicators (t : Text) : Bool :=
  containsSub t ['✅'] || containsSub t ['🔰']

/-- `'✅' in message or '🔰' in message` (line 350). -/
def hasSuccessSymbol (t : Text) : Bool :=
  containsSub t ['✅'] || containsSub t ['🔰']

/-! ## Data model (`CardPredictor.__init__`, lines 30-35) -/

inductive PredStatus
  | pending
  | correct
  | failed
deriving DecidableEq, Repr

/-- One entry of `self.predictions`.  `make_prediction` (lines 206-221)
fills every field; the synchronisation step of `_verify_prediction_common`
(lines 320-325) creates entries holding only `status` and `combination`
(plus opaque delivery metadata, elided here), so the remaining fields are
optional.  `verification_count` is the field the spec calls
`verification_offset`. -/
structure Prediction where
  combination : Text
  status : PredStatus
  predictedFrom : Option Nat := none
  verificationCount : Option Nat := none
  messageText : Option Text := none
  finalMessage : Option Text := none
deriving DecidableEq, Repr

/-- The `'update_message'` dictionary returned by
`_verify_prediction_common` (its `type` key is the constant
`'update_message'` and is elided). -/
structure Resolution where
  predictedGame : Nat
  newMessage : Text
  originalMessage : Text
deriving DecidableEq, Repr

/-- Python `dict` keyed by round number: an association list with unique
keys, `lookupAssoc`/`insertAssoc`/`eraseAssoc` modelling `d.get`,
`d[k] = v` and `del d[k]`. -/
def lookupAssoc {α : Type} : List (Nat × α) → Nat → Option α
  | [], _ => none
  | (k, v) :: rest, n => if k = n then some v else lookupAssoc rest n

def insertAssoc {α : Type} : List (Nat × α) → Nat → α → List (Nat × α)
  | [], n, v => [(n, v)]
  | (k, w) :: rest, n, v =>
    if k = n then (n, v) :: rest else (k, w) :: insertAssoc rest n v

def eraseAssoc {α : Type} : List (Nat × α) → Nat → List (Nat × α)
  | [], _ => []
  | (k, w) :: rest, n => if k = n then rest else (k, w) :: eraseAssoc rest n

abbrev PredMap := List (Nat × Prediction)

def assocKeys {α : Type} (m : List (Nat × α)) : List Nat := m.map Prod.fst

/-- The mutable state of the `CardPredictor` instance.  `processed_messages`
holds `hash(message)` values; the hash is modelled as the message text
itself (a deterministic fingerprint).  `sent_predictions` maps a round to
opaque per-channel delivery records, of which only the key set is ever
read by the engine, so it is modelled as the list of keys.
`pending_edits` is written by `should_wait_for_edit` only, which none of
the modelled operations call, so it is elided. -/
structure CardPredictor where
  predictions : PredMap
  processedMessages : List Text
  sentPredictions : List Nat
  temporaryMessages : List (Nat × Text)
deriving DecidableEq, Repr

def initialState : CardPredictor :=
  { predictions := [], processedMessages := [], sentPredictions := [],
    temporaryMessages := [] }

/-- `next_game in self.predictions and
self.predictions[next_game].get('status') == 'pending'` (line 150). -/
def isPendingBool (m : PredMap) (k : Nat) : Bool :=
  match lookupAssoc m k with
  | some p => if p.status = PredStatus.pending then true else false
  | none => false

/-- Decimal rendering of a round number, as Python's `format`/f-strings
produce it.  Fuel-bounded division recursion (`n + 1` steps always
suffice). -/
def natDigitChar (n : Nat) : Char := Char.ofNat ('0'.toNat + n)

def natToTextAux : Nat → Nat → Text
  | 0, _ => []
  | fuel + 1, n =>
    if n < 10 then [natDigitChar n]
    else natToTextAux fuel (n / 10) ++ [natDigitChar (n % 10)]

def natToText (n : Nat) : Text := natToTextAux (n + 1) n

/-- The status-message shape shared by `PREDICTION_MESSAGE`
(`"🔵{numero} 🔵3K: statut :⏳"`, line 19) and the f-strings of
`_verify_prediction_common` (lines 367-368 and 395-396), which differ
only in the status glyphs after the final colon. -/
def renderStatus (numero : Nat) (statusGlyphs : Text) : Text :=
  ("🔵").toList ++ natToText numero ++ (" 🔵3K: statut :").toList ++ statusGlyphs

def hourglassGlyph : Text := ['⏳']

/-- `PREDICTION_MESSAGE.format(numero=n)`. -/
def renderPending (numero : Nat) : Text := renderStatus numero hourglassGlyph

/-- `status_map = {0: '✅0️⃣', 1: '✅1️⃣', 2: '✅2️⃣', 3: '✅3️⃣'}` (line 361);
each value is ✅ followed by a digit-keycap glyph (digit, U+FE0F, U+20E3).
Only consulted for offsets 0-3. -/
def statusMap : Nat → Text
  | 0 => ['✅', '0', vs16, keycap]
  | 1 => ['✅', '1', vs16, keycap]
  | 2 => ['✅', '2', vs16, keycap]
  | 3 => ['✅', '3', vs16, keycap]
  | _ => []

def failGlyphs : Text := ['⭕', '⭕']

/-- `should_predict` (lines 135-204).  Returns the updated state paired
with `(should_predict, game_number, card_combination)`.  Mirrors the
source path by path: missing or zero (`if not game_number`) round marker;
duplicate pending prediction for `game_number + 1`; no parenthesised
section; first section with exactly 3 distinct suits (deleting the round
from `temporary_messages` when a completion indicator is present, then
the fingerprint guard); otherwise the temporary-message bookkeeping. -/
def shouldPredict (s : CardPredictor) (message : Text) :
    CardPredictor × (Bool × Option Nat × Option Text) :=
  match extractGameNumber message with
  | none => (s, (false, none, none))
  | some gameNumber =>
    if gameNumber = 0 then (s, (false, none, none))
    else
      let nextGame := gameNumber + 1
      if isPendingBool s.predictions nextGame then (s, (false, none, none))
      else
        match extractCardSymbolsFromParentheses message with
        | [] => (s, (false, none, none))
        | firstSection :: _ =>
          if firstSection.length = 3 then
            let combination := joinSortedSuits firstSection
            let temps := eraseAssoc s.temporaryMessages gameNumber
            let s1 :=
              if hasCompletionIndicators message then
                { s with temporaryMessages := temps }
              else s
            if s1.processedMessages.contains message then
              (s1, (false, none, none))
            else
              ({ s1 with processedMessages := message :: s1.processedMessages },
               (true, some gameNumber, some combination))
          else
            let temps := insertAssoc s.temporaryMessages gameNumber message
            let s1 :=
              if hasPendingIndicators message ∧ ¬ hasCompletionIndicators message then
                { s with temporaryMessages := temps }
              else s
            (s1, (false, none, none))

/-- `make_prediction` (lines 206-221). -/
def makePrediction (s : CardPredictor) (gameNumber : Nat) (combination : Text) :
    CardPredictor × Text :=
  let nextGame := gameNumber + 1
  let predictionText := renderPending nextGame
  let entry : Prediction :=
    { combination := combination, status := PredStatus.pending,
      predictedFrom := some gameNumber, verificationCount := some 0,
      messageText := some predictionText, finalMessage := none }
  let preds := insertAssoc s.predictions nextGame entry
  ({ s with predictions := preds }, predictionText)

/-- The entry the synchronisation step inserts for a sent prediction
missing from `self.predictions` (lines 321-325). -/
def unknownPending : Prediction :=
  { combination := ("unknown").toList, status := PredStatus.pending }

/-- Lines 317-325: every key of `sent_predictions` missing from
`predictions` is inserted as a fresh pending entry. -/
def syncSent (preds : PredMap) : List Nat → PredMap
  | [] => preds
  | k :: rest =>
    let preds' :=
      if (lookupAssoc preds k).isSome then preds
      else insertAssoc preds k unknownPending
    syncSent preds' rest

/-- `prediction.get('status', 'pending')` where
`prediction = self.predictions.get(predicted_game, {})` (lines 337-338). -/
def statusAt (m : PredMap) (k : Nat) : PredStatus :=
  match lookupAssoc m k with
  | some p => p.status
  | none => PredStatus.pending

/-- Ascending insertion sort: `sorted(...)` on a list of round numbers. -/
def insertAsc (x : Nat) : List Nat → List Nat
  | [] => [x]
  | y :: ys => if x ≤ y then x :: y :: ys else y :: insertAsc x ys

def sortAsc : List Nat → List Nat
  | [] => []
  | x :: xs => insertAsc x (sortAsc xs)

/-- The loop of lines 336-411.  Walks the sorted round numbers; skips
non-pending entries; inside the window 0-3 resolves to `correct` when the
message is edited, carries a success symbol and its first section has at
least 3 suit occurrences (otherwise continues); at offset ≥ 4 resolves to
`failed` unconditionally; negative offsets are skipped.  When the entry
is absent (`.get(predicted_game, {})` returned the default) the mutation
of the temporary dictionary is lost, as in the source. -/
def scanPredictions (gameNumber : Nat) (message : Text) (isEdited : Bool) :
    List Nat → PredMap → PredMap × Option Resolution
  | [], preds => (preds, none)
  | predictedGame :: rest, preds =>
    if statusAt preds predictedGame ≠ PredStatus.pending then
      scanPredictions gameNumber message isEdited rest preds
    else
      let verificationOffset : Int := (gameNumber : Int) - (predictedGame : Int)
      if 0 ≤ verificationOffset ∧ verificationOffset ≤ 3 then
        if hasSuccessSymbol message ∧ isEdited then
          if 3 ≤ countCardsInFirstParentheses message then
            let newStatus := statusMap verificationOffset.toNat
            let originalMessage := renderStatus predictedGame hourglassGlyph
            let updatedMessage := renderStatus predictedGame newStatus
            let preds' :=
              match lookupAssoc preds predictedGame with
              | some p =>
                let p' : Prediction :=
                  { p with
                    status := PredStatus.correct,
                    verificationCount := some verificationOffset.toNat,
                    finalMessage := some updatedMessage }
                insertAssoc preds predictedGame p'
              | none => preds
            let res : Resolution :=
              { predictedGame := predictedGame, newMessage := updatedMessage,
                originalMessage := originalMessage }
            (preds', some res)
          else scanPredictions gameNumber message isEdited rest preds
        else scanPredictions gameNumber message isEdited rest preds
      else
        if 4 ≤ verificationOffset then
          let originalMessage := renderStatus predictedGame hourglassGlyph
          let updatedMessage := renderStatus predictedGame failGlyphs
          let preds' :=
            match lookupAssoc preds predictedGame with
            | some p =>
              let p' : Prediction :=
                { p with
                  status := PredStatus.failed,
                  finalMessage := some updatedMessage }
              insertAssoc preds predictedGame p'
            | none => preds
          let res : Resolution :=
            { predictedGame := predictedGame, newMessage := updatedMessage,
              originalMessage := originalMessage }
          (preds', some res)
        else scanPredictions gameNumber message isEdited rest preds

/-- The post-synchronisation prediction store of a call. -/
def syncedOf (s : CardPredictor) : PredMap :=
  syncSent s.predictions s.sentPredictions

/-- `predictions_to_check = sorted(list(all_predictions))` (line 332):
the sent keys together with the keys of the synchronised store, as a
sorted set. -/
def predictionsToCheck (s : CardPredictor) : List Nat :=
  sortAsc ((s.sentPredictions ++ assocKeys (syncedOf s)).dedup)

/-- `_verify_prediction_common` (lines 305-411). -/
def verifyPredictionCommon (s : CardPredictor) (message : Text) (isEdited : Bool) :
    CardPredictor × Option Resolution :=
  match extractGameNumber message with
  | none => (s, none)
  | some gameNumber =>
    if gameNumber = 0 then (s, none)
    else
      let out := scanPredictions gameNumber message isEdited
        (predictionsToCheck s) (syncedOf s)
      ({ s with predictions := out.1 }, out.2)

/-- `verify_prediction` (lines 297-299). -/
def verifyPrediction (s : CardPredictor) (message : Text) :
    CardPredictor × Option Resolution :=
  verifyPredictionCommon s message false

/-- `verify_prediction_from_edit` (lines 301-303). -/
def verifyPredictionFromEdit (s : CardPredictor) (message : Text) :
    CardPredictor × Option Resolution :=
  verifyPredictionCommon s message true

/-! ## Reachable states

The operations the surrounding handlers perform on the shared
`card_predictor` instance (`handlers.py` lines 250-295): every incoming
text is fed to `should_predict`; on a `true` verdict `make_prediction`
is called with the returned round and combination, and on successful
dispatch a key is recorded in `sent_predictions`; every edited text is
fed to the verifier; the state starts empty (also what
`reset_predictions` restores). -/

inductive Reachable : CardPredictor → Prop where
  | init : Reachable initialState
  | predict (s : CardPredictor) (msg : Text) (hs : Reachable s) :
      Reachable (shouldPredict s msg).1
  | make (s s₁ : CardPredictor) (msg : Text) (r : Nat) (c : Text)
      (hs : Reachable s)
      (heq : shouldPredict s msg = (s₁, (true, some r, some c))) :
      Reachable (makePrediction s₁ r c).1
  | sent (s : CardPredictor) (k : Nat) (hs : Reachable s) :
      Reachable { s with sentPredictions := k :: s.sentPredictions }
  | verify (s : CardPredictor) (msg : Text) (e : Bool) (hs : Reachable s) :
      Reachable (verifyPredictionCommon s msg e).1

/-- The condition under which the scan loop stops at a pending round `k`
for a message with round `g`: either the window is exhausted
(offset ≥ 4, the unconditional failure branch), or the offset is in the
window and the message is an edited one with a success symbol and at
least 3 suit occurrences in its first section (the success branch). -/
def definitiveAt (g : Nat) (msg : Text) (e : Bool) (k : Nat) : Prop :=
  4 ≤ (g : Int) - (k : Int) ∨
    (0 ≤ (g : Int) - (k : Int) ∧ (g : Int) - (k : Int) ≤ 3 ∧
      hasSuccessSymbol msg = true ∧ e = true ∧
      3 ≤ countCardsInFirstParentheses msg)

/-- Point update of the store, as performed by the two resolving branches
of the scan (no-op when the key is absent, as for the source's mutation
of the `.get` default). -/
def updAt (m : PredMap) (k : Nat) (f : Prediction → Prediction) : PredMap :=
  match lookupAssoc m k with
  | some p => insertAssoc m k (f p)
  | none => m

/-- The entry written by the success branch (lines 370-372). -/
def correctEntry (g k : Nat) (p : Prediction) : Prediction :=
  { p with
    status := PredStatus.correct,
    verificationCount := some (((g : Int) - (k : Int)).toNat),
    finalMessage := some (renderStatus k (statusMap (((g : Int) - (k : Int)).toNat))) }

/-- The entry written by the failure branch (lines 398-399). -/
def failedEntry (k : Nat) (p : Prediction) : Prediction :=
  { p with
    status := PredStatus.failed,
    finalMessage := some (renderStatus k failGlyphs) }

/-- The resolution returned by the success branch (lines 378-383). -/
def correctRes (g k : Nat) : Resolution :=
  { predictedGame := k,
    newMessage := renderStatus k (statusMap (((g : Int) - (k : Int)).toNat)),
    originalMessage := renderStatus k hourglassGlyph }

/-- The resolution returned by the failure branch (lines 403-408). -/
def failedRes (k : Nat) : Resolution :=
  { predictedGame := k,
    newMessage := renderStatus k failGlyphs,
    originalMessage := renderStatus k hourglassGlyph }

/-! ## Concrete states and messages used by witnesses and counterexamples -/

/-- A message of round 744 whose first and second parenthesised sections
both contain exactly three distinct suits. -/
def twoTripleText : Text := ("#n744(♠️♥️♦️)(♠️♥️♣️)").toList

/-- A message of round 744 with a single three-suit section. -/
def tripleText : Text := ("#n744(♠️♥️♦️)").toList

/-- The sorted combination ♠️♥️♦️ produced for `tripleText` and
`twoTripleText`. -/
def comboSHD : Text := spade ++ heart ++ diamond

/-- The prediction `make_prediction 744 comboSHD` stores under key 745. -/
def pendingPred745 : Prediction :=
  { combination := comboSHD, status := PredStatus.pending,
    predictedFrom := some 744, verificationCount := some 0,
    messageText := some (renderPending 745), finalMessage := none }

/-- A store holding exactly one pending prediction, for round 745. -/
def singleStore : CardPredictor :=
  { initialState with predictions := [(745, pendingPred745)] }

/-- An edited completion message for round 745 whose first section holds
three suit occurrences (two of them equal). -/
def confirm745Text : Text := ("#n745(♠️♠️♥️)✅").toList

/-- A completion message for round 745 whose first section holds only two
suit occurrences. -/
def weak745Text : Text := ("#n745(♠️♥️)✅").toList

/-- A store holding two pending predictions, for rounds 5 and 10. -/
def pendingPredAt (r : Nat) : Prediction :=
  { combination := comboSHD, status := PredStatus.pending,
    predictedFrom := some (r - 1), verificationCount := some 0,
    messageText := some (renderPending r), finalMessage := none }

def doubleStore : CardPredictor :=
  { initialState with predictions := [(5, pendingPredAt 5), (10, pendingPredAt 10)] }

/-- An edited completion message for round 10 with a three-occurrence
first section. -/
def confirm10Text : Text := ("#n10(♠️♠️♥️)✅").toList

/-- A bare message for round 20. -/
def bare20Text : Text := ("#n20").toList

/-- A bare message for round 9. -/
def bare9Text : Text := ("#n9").toList

/-- A bare message for round 7. -/
def bare7Text : Text := ("#n7").toList

/-- A text without any round marker. -/
def noMarkerText : Text := ("hello (♠️♥️♦️) ✅").toList

/-- A text whose round marker is `#n0`. -/
def zeroMarkerText : Text := ("#n0 (♠️♥️♦️) ✅").toList

/-- A state with one sent prediction (round 7) absent from the store. -/
def sentOnlyStore : CardPredictor :=
  { initialState with sentPredictions := [7] }

/-- A store holding exactly one pending prediction, for round 5. -/
def store5 : CardPredictor :=
  { initialState with predictions := [(5, pendingPredAt 5)] }

/-- A bare message for round 749. -/
def bare749Text : Text := ("#n749").toList

/-- The state reached from the initial state by `should_predict` on
`tripleText` followed by `make_prediction 744 comboSHD`. -/
def madeState : CardPredictor :=
  (makePrediction (shouldPredict initialState tripleText).1 744 comboSHD).1

/-- The state reached from `madeState` by resolving `confirm745Text`. -/
def verState : CardPredictor :=
  (verifyPredictionCommon madeState confirm745Text true).1

/-- The entry stored for round 745 in `verState`. -/
def correctPred745 : Prediction :=
  { pendingPred745 with
    status := PredStatus.correct,
    verificationCount := some 0,
    finalMessage := some (renderStatus 745 (statusMap 0)) }

/-! ## Association-map, synchronisation and sorting lemmas -/

theorem lookupAssoc_insertAssoc_self {α : Type} (m : List (Nat × α)) (k : Nat) (v : α) :
    lookupAssoc (insertAssoc m k v) k = some v := by
  induction m with
  | nil => simp [insertAssoc, lookupAssoc]
  | cons hd tl ih =>
    obtain ⟨k0, v0⟩ := hd
    by_cases h : k0 = k
    · subst h
      simp [insertAssoc, lookupAssoc]
    · simp [insertAssoc, lookupAssoc, h, ih]

theorem lookupAssoc_insertAssoc_ne {α : Type} (m : List (Nat × α)) (k j : Nat) (v : α)
    (h : j ≠ k) : lookupAssoc (insertAssoc m k v) j = lookupAssoc m j := by
  induction m with
  | nil => simp [insertAssoc, lookupAssoc, Ne.symm h]
  | cons hd tl ih =>
    obtain ⟨k0, v0⟩ := hd
    by_cases hk : k0 = k
    · subst hk
      simp [insertAssoc, lookupAssoc, Ne.symm h]
    · simp only [insertAssoc, if_neg hk, lookupAssoc]
      by_cases hj : k0 = j
      · simp [hj]
      · simp [hj, ih]

theorem lookup_some_mem_assocKeys {α : Type} (m : List (Nat × α)) (k : Nat) (v : α)
    (h : lookupAssoc m k = some v) : k ∈ assocKeys m := by
  induction m with
  | nil => simp [lookupAssoc] at h
  | cons hd tl ih =>
    obtain ⟨k0, v0⟩ := hd
    by_cases hk : k0 = k
    · subst hk
      simp [assocKeys]
    · simp only [lookupAssoc, if_neg hk] at h
      simpa [assocKeys] using Or.inr (ih h)

theorem mem_assocKeys_isSome {α : Type} (m : List (Nat × α)) (k : Nat)
    (h : k ∈ assocKeys m) : (lookupAssoc m k).isSome := by
  induction m with
  | nil => simp [assocKeys] at h
  | cons hd tl ih =>
    obtain ⟨k0, v0⟩ := hd
    by_cases hk : k0 = k
    · subst hk
      simp [lookupAssoc]
    · simp only [assocKeys, List.map_cons, List.mem_cons] at h
      rcases h with h | h
      · exact absurd h.symm hk
      · simpa [lookupAssoc, hk] using ih h

theorem syncSent_pres : ∀ (sent : List Nat) (preds : PredMap) (k : Nat) (p : Prediction),
    lookupAssoc preds k = some p → lookupAssoc (syncSent preds sent) k = some p := by
  intro sent
  induction sent with
  | nil =>
    intro preds k p h
    simpa [syncSent] using h
  | cons k0 rest ih =>
    intro preds k p h
    cases hlk : lookupAssoc preds k0 with
    | some q =>
      simp only [syncSent, hlk, Option.isSome_some, if_true]
      exact ih preds k p h
    | none =>
      simp only [syncSent, hlk, Option.isSome_none, Bool.false_eq_true, if_false]
      apply ih
      have hkk : k ≠ k0 := by
        intro hh
        rw [hh, hlk] at h
        exact Option.noConfusion h
      rwa [lookupAssoc_insertAssoc_ne _ _ _ _ hkk]

theorem syncSent_new : ∀ (sent : List Nat) (preds : PredMap) (k : Nat),
    k ∈ sent → lookupAssoc preds k = none →
    lookupAssoc (syncSent preds sent) k = some unknownPending := by
  intro sent
  induction sent with
  | nil =>
    intro preds k hmem h
    simp at hmem
  | cons k0 rest ih =>
    intro preds k hmem h
    by_cases hkk : k0 = k
    · subst hkk
      simp only [syncSent, h, Option.isSome_none, Bool.false_eq_true, if_false]
      exact syncSent_pres _ _ _ _ (lookupAssoc_insertAssoc_self _ _ _)
    · have hmem' : k ∈ rest := by
        rcases List.mem_cons.mp hmem with h1 | h1
        · exact absurd h1.symm hkk
        · exact h1
      cases hlk : lookupAssoc preds k0 with
      | some q =>
        simp only [syncSent, hlk, Option.isSome_some, if_true]
        exact ih preds k hmem' h
      | none =>
        simp only [syncSent, hlk, Option.isSome_none, Bool.false_eq_true, if_false]
        apply ih _ _ hmem'
        rwa [lookupAssoc_insertAssoc_ne _ _ _ _ (Ne.symm hkk)]

theorem syncSent_mem_isSome (preds : PredMap) (sent : List Nat) (k : Nat)
    (hmem : k ∈ sent) : (lookupAssoc (syncSent preds sent) k).isSome := by
  cases h : lookupAssoc preds k with
  | some p => simp [syncSent_pres sent _ _ _ h]
  | none => simp [syncSent_new sent _ _ hmem h]

theorem mem_insertAsc (x j : Nat) (l : List Nat) :
    j ∈ insertAsc x l ↔ j = x ∨ j ∈ l := by
  induction l with
  | nil => simp [insertAsc]
  | cons y ys ih =>
    by_cases h : x ≤ y
    · simp [insertAsc, h]
    · simp only [insertAsc, if_neg h, List.mem_cons, ih]
      tauto

theorem sorted_insertAsc (x : Nat) (l : List Nat) (h : l.Sorted (· ≤ ·)) :
    (insertAsc x l).Sorted (· ≤ ·) := by
  induction l with
  | nil => simp [insertAsc]
  | cons y ys ih =>
    rw [List.sorted_cons] at h
    by_cases hxy : x ≤ y
    · rw [insertAsc, if_pos hxy, List.sorted_cons]
      refine ⟨?_, List.sorted_cons.mpr h⟩
      intro b hb
      rcases List.mem_cons.mp hb with hb | hb
      · omega
      · have := h.1 b hb
        omega
    · rw [insertAsc, if_neg hxy, List.sorted_cons]
      refine ⟨?_, ih h.2⟩
      intro b hb
      rcases (mem_insertAsc x b ys).mp hb with hb | hb
      · omega
      · exact h.1 b hb

theorem sorted_sortAsc (l : List Nat) : (sortAsc l).Sorted (· ≤ ·) := by
  induction l with
  | nil => simp [sortAsc]
  | cons x xs ih => exact sorted_insertAsc x _ ih

theorem mem_sortAsc (j : Nat) (l : List Nat) : j ∈ sortAsc l ↔ j ∈ l := by
  induction l with
  | nil => simp [sortAsc]
  | cons x xs ih => simp [sortAsc, mem_insertAsc, ih]

theorem mem_predictionsToCheck_isSome (s : CardPredictor) (k : Nat)
    (h : k ∈ predictionsToCheck s) : (lookupAssoc (syncedOf s) k).isSome := by
  rw [predictionsToCheck, mem_sortAsc, List.mem_dedup, List.mem_append] at h
  rcases h with h | h
  · exact syncSent_mem_isSome _ _ _ h
  · exact mem_assocKeys_isSome _ _ h

theorem lookup_synced_mem_predictionsToCheck (s : CardPredictor) (k : Nat)
    (p : Prediction) (h : lookupAssoc (syncedOf s) k = some p) :
    k ∈ predictionsToCheck s := by
  rw [predictionsToCheck, mem_sortAsc, List.mem_dedup, List.mem_append]
  exact Or.inr (lookup_some_mem_assocKeys _ _ _ h)

/-! ## Characterisation of one step of the verification scan -/

theorem scan_cons_skip (g : Nat) (msg : Text) (e : Bool) (k : Nat) (rest : List Nat)
    (m : PredMap) (h1 : statusAt m k ≠ PredStatus.pending) :
    scanPredictions g msg e (k :: rest) m = scanPredictions g msg e rest m := by
  simp only [scanPredictions]
  rw [if_pos h1]

theorem scan_cons_correct (g : Nat) (msg : Text) (e : Bool) (k : Nat) (rest : List Nat)
    (m : PredMap) (h1 : statusAt m k = PredStatus.pending)
    (hw : 0 ≤ (g : Int) - (k : Int) ∧ (g : Int) - (k : Int) ≤ 3)
    (hs : hasSuccessSymbol msg = true ∧ e = true)
    (hc : 3 ≤ countCardsInFirstParentheses msg) :
    scanPredictions g msg e (k :: rest) m =
      (updAt m k (correctEntry g k), some (correctRes g k)) := by
  simp only [scanPredictions]
  rw [if_neg (fun hc' => hc' h1), if_pos hw, if_pos hs, if_pos hc]
  cases hlk : lookupAssoc m k with
  | some p => simp [updAt, correctEntry, correctRes, hlk]
  | none => simp [updAt, correctEntry, correctRes, hlk]

theorem scan_cons_failed (g : Nat) (msg : Text) (e : Bool) (k : Nat) (rest : List Nat)
    (m : PredMap) (h1 : statusAt m k = PredStatus.pending)
    (h4 : 4 ≤ (g : Int) - (k : Int)) :
    scanPredictions g msg e (k :: rest) m =
      (updAt m k (failedEntry k), some (failedRes k)) := by
  simp only [scanPredictions]
  rw [if_neg (fun hc' => hc' h1), if_neg (by omega : ¬ (0 ≤ (g : Int) - (k : Int) ∧ (g : Int) - (k : Int) ≤ 3)), if_pos h4]
  cases hlk : lookupAssoc m k with
  | some p => simp [updAt, failedEntry, failedRes, hlk]
  | none => simp [updAt, failedEntry, failedRes, hlk]

theorem scan_cons_notdef (g : Nat) (msg : Text) (e : Bool) (k : Nat) (rest : List Nat)
    (m : PredMap) (h1 : statusAt m k = PredStatus.pending)
    (h2 : ¬ definitiveAt g msg e k) :
    scanPredictions g msg e (k :: rest) m = scanPredictions g msg e rest m := by
  simp only [scanPredictions]
  rw [if_neg (fun hc' => hc' h1)]
  rw [definitiveAt, not_or] at h2
  obtain ⟨h4, hrest⟩ := h2
  by_cases hw : 0 ≤ (g : Int) - (k : Int) ∧ (g : Int) - (k : Int) ≤ 3
  · rw [if_pos hw]
    by_cases hs : hasSuccessSymbol msg = true ∧ e = true
    · rw [if_pos hs]
      rw [if_neg]
      intro hc
      exact hrest ⟨hw.1, hw.2, hs.1, hs.2, hc⟩
    · rw [if_neg hs]
  · rw [if_neg hw, if_neg h4]

/-! ## Global lemmas about the verification scan -/

theorem scan_none_eq (g : Nat) (msg : Text) (e : Bool) :
    ∀ (ks : List Nat) (m : PredMap),
    (scanPredictions g msg e ks m).2 = none → (scanPredictions g msg e ks m).1 = m := by
  intro ks
  induction ks with
  | nil => intro m _; rfl
  | cons k rest ih =>
    intro m h
    by_cases h1 : statusAt m k = PredStatus.pending
    · by_cases h2 : definitiveAt g msg e k
      · rcases h2 with h4 | ⟨hw0, hw3, hsucc, he, hcnt⟩
        · rw [scan_cons_failed g msg e k rest m h1 h4] at h
          simp at h
        · rw [scan_cons_correct g msg e k rest m h1 ⟨hw0, hw3⟩ ⟨hsucc, he⟩ hcnt] at h
          simp at h
      · rw [scan_cons_notdef g msg e k rest m h1 h2] at h ⊢
        exact ih m h
    · rw [scan_cons_skip g msg e k rest m h1] at h ⊢
      exact ih m h

theorem scan_frame (g : Nat) (msg : Text) (e : Bool) :
    ∀ (ks : List Nat) (m : PredMap) (res : Resolution),
    (scanPredictions g msg e ks m).2 = some res →
    ∀ j, j ≠ res.predictedGame →
      lookupAssoc (scanPredictions g msg e ks m).1 j = lookupAssoc m j := by
  intro ks
  induction ks with
  | nil => intro m res h; simp [scanPredictions] at h
  | cons k rest ih =>
    intro m res h j hj
    by_cases h1 : statusAt m k = PredStatus.pending
    · by_cases h2 : definitiveAt g msg e k
      · rcases h2 with h4 | ⟨hw0, hw3, hsucc, he, hcnt⟩
        · rw [scan_cons_failed g msg e k rest m h1 h4] at h ⊢
          simp only [Option.some_inj] at h
          subst h
          have hjk : j ≠ k := hj
          cases hlk : lookupAssoc m k with
          | some p => simp [updAt, hlk, lookupAssoc_insertAssoc_ne _ _ _ _ hjk]
          | none => simp [updAt, hlk]
        · rw [scan_cons_correct g msg e k rest m h1 ⟨hw0, hw3⟩ ⟨hsucc, he⟩ hcnt] at h ⊢
          simp only [Option.some_inj] at h
          subst h
          have hjk : j ≠ k := hj
          cases hlk : lookupAssoc m k with
          | some p => simp [updAt, hlk, lookupAssoc_insertAssoc_ne _ _ _ _ hjk]
          | none => simp [updAt, hlk]
      · rw [scan_cons_notdef g msg e k rest m h1 h2] at h ⊢
        exact ih m res h j hj
    · rw [scan_cons_skip g msg e k rest m h1] at h ⊢
      exact ih m res h j hj

theorem scan_some_props (g : Nat) (msg : Text) (e : Bool) :
    ∀ (ks : List Nat) (m : PredMap) (res : Resolution),
    (scanPredictions g msg e ks m).2 = some res →
    res.predictedGame ∈ ks ∧ statusAt m res.predictedGame = PredStatus.pending ∧
      definitiveAt g msg e res.predictedGame := by
  intro ks
  induction ks with
  | nil => intro m res h; simp [scanPredictions] at h
  | cons k rest ih =>
    intro m res h
    by_cases h1 : statusAt m k = PredStatus.pending
    · by_cases h2 : definitiveAt g msg e k
      · rcases h2 with h4 | ⟨hw0, hw3, hsucc, he, hcnt⟩
        · rw [scan_cons_failed g msg e k rest m h1 h4] at h
          simp only [Option.some_inj] at h
          subst h
          exact ⟨List.mem_cons_self _ _, h1, Or.inl h4⟩
        · rw [scan_cons_correct g msg e k rest m h1 ⟨hw0, hw3⟩ ⟨hsucc, he⟩ hcnt] at h
          simp only [Option.some_inj] at h
          subst h
          exact ⟨List.mem_cons_self _ _, h1, Or.inr ⟨hw0, hw3, hsucc, he, hcnt⟩⟩
      · rw [scan_cons_notdef g msg e k rest m h1 h2] at h
        obtain ⟨hm, hp, hd⟩ := ih m res h
        exact ⟨List.mem_cons_of_mem _ hm, hp, hd⟩
    · rw [scan_cons_skip g msg e k rest m h1] at h
      obtain ⟨hm, hp, hd⟩ := ih m res h
      exact ⟨List.mem_cons_of_mem _ hm, hp, hd⟩

theorem scan_min (g : Nat) (msg : Text) (e : Bool) :
    ∀ (ks : List Nat), ks.Sorted (· ≤ ·) →
    ∀ (m : PredMap) (res : Resolution),
    (scanPredictions g msg e ks m).2 = some res →
    ∀ k ∈ ks, k < res.predictedGame → statusAt m k = PredStatus.pending →
      ¬ definitiveAt g msg e k := by
  intro ks
  induction ks with
  | nil => intro _ m res h; simp [scanPredictions] at h
  | cons k0 rest ih =>
    intro hsort m res h k hk hlt hpend
    rw [List.sorted_cons] at hsort
    by_cases h1 : statusAt m k0 = PredStatus.pending
    · by_cases h2 : definitiveAt g msg e k0
      · have hres : res.predictedGame = k0 := by
          rcases h2 with h4 | ⟨hw0, hw3, hsucc, he, hcnt⟩
          · rw [scan_cons_failed g msg e k0 rest m h1 h4] at h
            simp only [Option.some_inj] at h
            rw [← h]
            rfl
          · rw [scan_cons_correct g msg e k0 rest m h1 ⟨hw0, hw3⟩ ⟨hsucc, he⟩ hcnt] at h
            simp only [Option.some_inj] at h
            rw [← h]
            rfl
        rcases List.mem_cons.mp hk with hkk | hkk
        · subst hkk
          omega
        · have := hsort.1 k hkk
          omega
      · rw [scan_cons_notdef g msg e k0 rest m h1 h2] at h
        rcases List.mem_cons.mp hk with hkk | hkk
        · subst hkk
          exact h2
        · exact ih hsort.2 m res h k hkk hlt hpend
    · rw [scan_cons_skip g msg e k0 rest m h1] at h
      rcases List.mem_cons.mp hk with hkk | hkk
      · subst hkk
        exact absurd hpend h1
      · exact ih hsort.2 m res h k hkk hlt hpend

theorem scan_reach_correct (g : Nat) (msg : Text) (e : Bool) (R : Nat)
    (hRg : R ≤ g) (hg3 : g ≤ R + 3)
    (hsucc : hasSuccessSymbol msg = true) (he : e = true)
    (hcnt : 3 ≤ countCardsInFirstParentheses msg) :
    ∀ (ks : List Nat), ks.Sorted (· ≤ ·) →
    ∀ (m : PredMap), R ∈ ks →
    (∀ k ∈ ks, k < R → statusAt m k ≠ PredStatus.pending) →
    statusAt m R = PredStatus.pending →
    scanPredictions g msg e ks m = (updAt m R (correctEntry g R), some (correctRes g R)) := by
  intro ks
  induction ks with
  | nil => intro _ m hmem; simp at hmem
  | cons k0 rest ih =>
    intro hsort m hmem hskip hpend
    rw [List.sorted_cons] at hsort
    by_cases hk0 : k0 = R
    · subst hk0
      exact scan_cons_correct g msg e k0 rest m hpend
        (by constructor <;> omega) ⟨hsucc, he⟩ hcnt
    · have hmem' : R ∈ rest := by
        rcases List.mem_cons.mp hmem with h | h
        · exact absurd h.symm hk0
        · exact h
      have hk0R : k0 < R := by
        have := hsort.1 R hmem'
        omega
      have h1 : statusAt m k0 ≠ PredStatus.pending :=
        hskip k0 (List.mem_cons_self _ _) hk0R
      rw [scan_cons_skip g msg e k0 rest m h1]
      exact ih hsort.2 m hmem'
        (fun k hk hlt => hskip k (List.mem_cons_of_mem _ hk) hlt) hpend

theorem scan_reach_failed (g : Nat) (msg : Text) (e : Bool) (R : Nat)
    (hg4 : R + 4 ≤ g) :
    ∀ (ks : List Nat), ks.Sorted (· ≤ ·) →
    ∀ (m : PredMap), R ∈ ks →
    (∀ k ∈ ks, k < R → statusAt m k ≠ PredStatus.pending) →
    statusAt m R = PredStatus.pending →
    scanPredictions g msg e ks m = (updAt m R (failedEntry R), some (failedRes R)) := by
  intro ks
  induction ks with
  | nil => intro _ m hmem; simp at hmem
  | cons k0 rest ih =>
    intro hsort m hmem hskip hpend
    rw [List.sorted_cons] at hsort
    by_cases hk0 : k0 = R
    · subst hk0
      exact scan_cons_failed g msg e k0 rest m hpend (by omega)
    · have hmem' : R ∈ rest := by
        rcases List.mem_cons.mp hmem with h | h
        · exact absurd h.symm hk0
        · exact h
      have hk0R : k0 < R := by
        have := hsort.1 R hmem'
        omega
      have h1 : statusAt m k0 ≠ PredStatus.pending :=
        hskip k0 (List.mem_cons_self _ _) hk0R
      rw [scan_cons_skip g msg e k0 rest m h1]
      exact ih hsort.2 m hmem'
        (fun k hk hlt => hskip k (List.mem_cons_of_mem _ hk) hlt) hpend

/-! ## Unfolding lemmas for the two stateful entry points -/

theorem verifyCommon_eq (s : CardPredictor) (msg : Text) (e : Bool) (g : Nat)
    (hg : extractGameNumber msg = some g) (hg0 : g ≠ 0) :
    verifyPredictionCommon s msg e =
      ({ s with predictions :=
          (scanPredictions g msg e (predictionsToCheck s) (syncedOf s)).1 },
       (scanPredictions g msg e (predictionsToCheck s) (syncedOf s)).2) := by
  simp only [verifyPredictionCommon, hg]
  rw [if_neg hg0]

theorem shouldPredict_predictions (s : CardPredictor) (msg : Text) :
    ((shouldPredict s msg).1).predictions = s.predictions := by
  unfold shouldPredict
  cases extractGameNumber msg with
  | none => rfl
  | some g =>
    dsimp only
    split_ifs <;>
      first
      | rfl
      | (cases extractCardSymbolsFromParentheses msg with
         | nil => rfl
         | cons f rest =>
           dsimp only
           split_ifs <;> rfl)

theorem shouldPredict_true_inv (s s₁ : CardPredictor) (msg : Text)
    (og : Option Nat) (oc : Option Text)
    (h : shouldPredict s msg = (s₁, (true, og, oc))) :
    ∃ g, extractGameNumber msg = some g ∧ g ≠ 0 ∧ og = some g := by
  unfold shouldPredict at h
  cases hg : extractGameNumber msg with
  | none =>
    rw [hg] at h
    simp at h
  | some g =>
    rw [hg] at h
    dsimp only at h
    by_cases hg0 : g = 0
    · rw [if_pos hg0] at h
      simp at h
    · rw [if_neg hg0] at h
      refine ⟨g, rfl, hg0, ?_⟩
      by_cases hp : isPendingBool s.predictions (g + 1)
      · rw [if_pos hp] at h
        simp at h
      · rw [if_neg hp] at h
        cases hsec : extractCardSymbolsFromParentheses msg with
        | nil =>
          rw [hsec] at h
          simp at h
        | cons f rest =>
          rw [hsec] at h
          dsimp only at h
          by_cases h3 : f.length = 3
          · rw [if_pos h3] at h
            split_ifs at h
            all_goals simp only [Prod.mk.injEq] at h
            all_goals
              first
              | exact h.2.2.1.symm
              | exact absurd h.2.1 Bool.false_ne_true
          · rw [if_neg h3] at h
            simp at h

/-! ## The verification-count invariant -/

/-- Every stored entry has `verification_count` at most 3 when defined,
and defined whenever the entry is `correct`. -/
def predInv (m : PredMap) : Prop :=
  ∀ k p, lookupAssoc m k = some p →
    (p.status = PredStatus.correct → p.verificationCount.isSome = true) ∧
    p.verificationCount.getD 0 ≤ 3

theorem predInv_insert (m : PredMap) (k : Nat) (p : Prediction)
    (hm : predInv m)
    (hc : p.status = PredStatus.correct → p.verificationCount.isSome = true)
    (hv : p.verificationCount.getD 0 ≤ 3) :
    predInv (insertAssoc m k p) := by
  intro j q hq
  by_cases hj : j = k
  · subst hj
    rw [lookupAssoc_insertAssoc_self] at hq
    cases hq
    exact ⟨hc, hv⟩
  · rw [lookupAssoc_insertAssoc_ne _ _ _ _ hj] at hq
    exact hm j q hq

theorem predInv_syncSent : ∀ (sent : List Nat) (preds : PredMap),
    predInv preds → predInv (syncSent preds sent) := by
  intro sent
  induction sent with
  | nil => intro preds h; simpa [syncSent] using h
  | cons k0 rest ih =>
    intro preds h
    cases hlk : lookupAssoc preds k0 with
    | some q =>
      simp only [syncSent, hlk, Option.isSome_some, if_true]
      exact ih preds h
    | none =>
      simp only [syncSent, hlk, Option.isSome_none, Bool.false_eq_true, if_false]
      apply ih
      apply predInv_insert _ _ _ h
      · intro hcon
        simp [unknownPending] at hcon
      · simp [unknownPending]

theorem predInv_scan (g : Nat) (msg : Text) (e : Bool) :
    ∀ (ks : List Nat) (m : PredMap),
    predInv m → predInv (scanPredictions g msg e ks m).1 := by
  intro ks
  induction ks with
  | nil => intro m h; exact h
  | cons k rest ih =>
    intro m h
    by_cases h1 : statusAt m k = PredStatus.pending
    · by_cases h2 : definitiveAt g msg e k
      · rcases h2 with h4 | ⟨hw0, hw3, hsucc, he, hcnt⟩
        · rw [scan_cons_failed g msg e k rest m h1 h4]
          cases hlk : lookupAssoc m k with
          | some p =>
            simp only [updAt, hlk]
            apply predInv_insert _ _ _ h
            · intro hcon
              simp [failedEntry] at hcon
            · exact (h k p hlk).2
          | none => simpa [updAt, hlk] using h
        · rw [scan_cons_correct g msg e k rest m h1 ⟨hw0, hw3⟩ ⟨hsucc, he⟩ hcnt]
          cases hlk : lookupAssoc m k with
          | some p =>
            simp only [updAt, hlk]
            apply predInv_insert _ _ _ h
            · intro _
              simp [correctEntry]
            · simp only [correctEntry, Option.getD_some]
              omega
          | none => simpa [updAt, hlk] using h
      · rw [scan_cons_notdef g msg e k rest m h1 h2]
        exact ih m h
    · rw [scan_cons_skip g msg e k rest m h1]
      exact ih m h

theorem reachable_predInv (s : CardPredictor) (h : Reachable s) :
    predInv s.predictions := by
  induction h with
  | init =>
    intro k p hp
    simp [initialState, lookupAssoc] at hp
  | predict s msg hs ih =>
    rw [shouldPredict_predictions]
    exact ih
  | make s s₁ msg r c hs heq ih =>
    have h0 : (shouldPredict s msg).1 = s₁ := congrArg Prod.fst heq
    have h1 : s₁.predictions = s.predictions := by
      rw [← h0]
      exact shouldPredict_predictions s msg
    simp only [makePrediction]
    apply predInv_insert
    · rw [h1]
      exact ih
    · intro hcon
      exact absurd hcon (by simp)
    · simp
  | sent s k hs ih => exact ih
  | verify s msg e hs ih =>
    cases hg : extractGameNumber msg with
    | none =>
      simp only [verifyPredictionCommon, hg]
      exact ih
    | some g =>
      by_cases hg0 : g = 0
      · subst hg0
        simp only [verifyPredictionCommon, hg, if_pos rfl]
        exact ih
      · rw [verifyCommon_eq s msg e g hg hg0]
        exact predInv_scan g msg e _ _ (predInv_syncSent _ _ ih)

theorem sorted_predictionsToCheck (s : CardPredictor) :
    (predictionsToCheck s).Sorted (· ≤ ·) := by
  rw [predictionsToCheck]
  exact sorted_sortAsc _

/-- A returning scan leaves the store point-updated at the resolved key,
with one of the two branch entries. -/
theorem scan_some_shape (g : Nat) (msg : Text) (e : Bool) :
    ∀ (ks : List Nat) (m : PredMap) (res : Resolution),
    (scanPredictions g msg e ks m).2 = some res →
    (scanPredictions g msg e ks m).1 = updAt m res.predictedGame (correctEntry g res.predictedGame) ∨
    (scanPredictions g msg e ks m).1 = updAt m res.predictedGame (failedEntry res.predictedGame) := by
  intro ks
  induction ks with
  | nil => intro m res h; simp [scanPredictions] at h
  | cons k rest ih =>
    intro m res h
    by_cases h1 : statusAt m k = PredStatus.pending
    · by_cases h2 : definitiveAt g msg e k
      · rcases h2 with h4 | ⟨hw0, hw3, hsucc, he, hcnt⟩
        · rw [scan_cons_failed g msg e k rest m h1 h4] at h ⊢
          simp only [Option.some_inj] at h
          subst h
          exact Or.inr rfl
        · rw [scan_cons_correct g msg e k rest m h1 ⟨hw0, hw3⟩ ⟨hsucc, he⟩ hcnt] at h ⊢
          simp only [Option.some_inj] at h
          subst h
          exact Or.inl rfl
      · rw [scan_cons_notdef g msg e k rest m h1 h2] at h ⊢
        exact ih m res h
    · rw [scan_cons_skip g msg e k rest m h1] at h ⊢
      exact ih m res h

theorem lookup_updAt_isSome (m : PredMap) (k : Nat) (f : Prediction → Prediction)
    (h : (lookupAssoc m k).isSome) : (lookupAssoc (updAt m k f) k).isSome := by
  cases hlk : lookupAssoc m k with
  | some p => simp [updAt, hlk, lookupAssoc_insertAssoc_self]
  | none => simp [hlk] at h

/-! ## Claim theorems -/

/-- C7: for every message text with no `#N<digits>` marker (i.e. on which
`extract_game_number` returns none), `should_predict` returns a false
verdict with no round and no combination, `resolve` returns none for both
edited and non-edited calls, and neither call changes the state. -/
theorem C7_no_marker (s : CardPredictor) (msg : Text)
    (h : extractGameNumber msg = none) :
    shouldPredict s msg = (s, (false, none, none)) ∧
    verifyPredictionCommon s msg true = (s, none) ∧
    verifyPredictionCommon s msg false = (s, none) := by
  refine ⟨?_, ?_, ?_⟩ <;> simp [shouldPredict, verifyPredictionCommon, h]

theorem C7_witness :
    shouldPredict initialState noMarkerText = (initialState, (false, none, none)) ∧
    verifyPredictionCommon initialState noMarkerText true = (initialState, none) ∧
    verifyPredictionCommon initialState noMarkerText false = (initialState, none) :=
  C7_no_marker initialState noMarkerText (by decide)

/-- C9: a message whose marker digits are exactly 0 makes
`extract_game_number` return the integer 0, yet `should_predict` returns
a false verdict and `resolve` returns none with the state unchanged —
both operations test the extracted number for falsiness
(`if not game_number`), so round 0 behaves like an absent marker. -/
theorem C9_round_zero (s : CardPredictor) (msg : Text)
    (h : extractGameNumber msg = some 0) :
    shouldPredict s msg = (s, (false, none, none)) ∧
    verifyPredictionCommon s msg true = (s, none) ∧
    verifyPredictionCommon s msg false = (s, none) := by
  refine ⟨?_, ?_, ?_⟩ <;> simp [shouldPredict, verifyPredictionCommon, h]

theorem C9_witness :
    extractGameNumber zeroMarkerText = some 0 ∧
    shouldPredict initialState zeroMarkerText = (initialState, (false, none, none)) ∧
    verifyPredictionCommon initialState zeroMarkerText true = (initialState, none) ∧
    verifyPredictionCommon initialState zeroMarkerText false = (initialState, none) :=
  ⟨by decide, C9_round_zero initialState zeroMarkerText (by decide)⟩

/-- C6: when `should_predict` returns `(true, r, c)`, `make_prediction r c`
returns exactly the pending template rendered for round `r + 1` and
stores under key `r + 1` a pending Prediction carrying that rendered
text, and running `should_predict` again on the identical text afterwards
returns a false verdict (the freshly stored pending prediction for
`r + 1` suppresses the duplicate). -/
theorem C6_idempotence (s s₁ : CardPredictor) (msg : Text) (r : Nat) (c : Text)
    (h : shouldPredict s msg = (s₁, (true, some r, some c))) :
    (makePrediction s₁ r c).2 = renderPending (r + 1) ∧
    lookupAssoc ((makePrediction s₁ r c).1).predictions (r + 1) =
      some { combination := c, status := PredStatus.pending,
             predictedFrom := some r, verificationCount := some 0,
             messageText := some (renderPending (r + 1)), finalMessage := none } ∧
    (shouldPredict ((makePrediction s₁ r c).1) msg).2 = (false, none, none) := by
  obtain ⟨g, hg, hg0, hog⟩ := shouldPredict_true_inv s s₁ msg (some r) (some c) h
  have hrg : r = g := by
    cases hog
    rfl
  subst hrg
  refine ⟨rfl, ?_, ?_⟩
  · simp only [makePrediction]
    exact lookupAssoc_insertAssoc_self _ _ _
  · have hpend : isPendingBool ((makePrediction s₁ r c).1).predictions (r + 1) = true := by
      simp only [makePrediction, isPendingBool]
      rw [lookupAssoc_insertAssoc_self]
      simp
    simp only [shouldPredict, hg]
    rw [if_neg hg0, if_pos hpend]

theorem C6_witness :
    (makePrediction ((shouldPredict initialState tripleText).1) 744 comboSHD).2 =
      renderPending 745 ∧
    lookupAssoc ((makePrediction ((shouldPredict initialState tripleText).1) 744
        comboSHD).1).predictions 745 =
      some { combination := comboSHD, status := PredStatus.pending,
             predictedFrom := some 744, verificationCount := some 0,
             messageText := some (renderPending 745), finalMessage := none } ∧
    (shouldPredict ((makePrediction ((shouldPredict initialState tripleText).1) 744
        comboSHD).1) tripleText).2 = (false, none, none) :=
  C6_idempotence initialState ((shouldPredict initialState tripleText).1) tripleText
    744 comboSHD (by decide)

/-- C1 (as amended): for a message with a nonzero round marker, no pending
prediction stored for round+1, an unseen fingerprint and at least one
parenthesised section, `should_predict` returns a true verdict iff the
set of distinct suits of the FIRST section has size exactly 3 — the
second section is never examined by the code. -/
theorem C1_amended (s : CardPredictor) (msg : Text) (g : Nat)
    (hg : extractGameNumber msg = some g) (hg0 : g ≠ 0)
    (hnp : isPendingBool s.predictions (g + 1) = false)
    (hseen : s.processedMessages.contains msg = false)
    (f : List Text) (rest : List (List Text))
    (hsec : extractCardSymbolsFromParentheses msg = f :: rest) :
    ((shouldPredict s msg).2.1 = true ↔ f.length = 3) := by
  simp only [shouldPredict, hg]
  rw [if_neg hg0, if_neg (by simp [hnp]), hsec]
  dsimp only
  by_cases h3 : f.length = 3
  · rw [if_pos h3]
    split_ifs with hcompl hcont hcont
    · exfalso
      simp only [CardPredictor.mk.injEq] at hcont
      rw [hseen] at hcont
      exact Bool.false_ne_true hcont
    · simp [h3]
    · exfalso
      rw [hseen] at hcont
      exact Bool.false_ne_true hcont
    · simp [h3]
  · rw [if_neg h3]
    split_ifs <;> simp [h3]

/-- C1 counterexample: on `twoTripleText` every hypothesis of the claim
holds and both parenthesised sections carry exactly 3 distinct suits, so
the claim as stated demands a false verdict, yet `should_predict`
answers true: the second section plays no role. -/
theorem C1_counterexample :
    extractGameNumber twoTripleText = some 744 ∧
    isPendingBool initialState.predictions 745 = false ∧
    initialState.processedMessages.contains twoTripleText = false ∧
    (extractCardSymbolsFromParentheses twoTripleText).map List.length = [3, 3] ∧
    (shouldPredict initialState twoTripleText).2.1 = true := by decide

theorem C1_witness :
    ((shouldPredict initialState twoTripleText).2.1 = true ↔
      ([spade, heart, diamond] : List Text).length = 3) :=
  C1_amended initialState twoTripleText 744 (by decide) (by decide) (by decide)
    (by decide) [spade, heart, diamond] [[spade, heart, club]] (by decide)

/-- C5: the claim (and the function's own docstring, "ONLY VERIFIES on
EDITED messages") says a non-edited call never resolves anything; the
code's offset ≥ 4 failure branch ignores `is_edited`, so
`verify_prediction` (is_edited = false) on a bare `#n9` message resolves
the pending round-5 prediction to failed and mutates its status. -/
theorem C5_behavior :
    (verifyPrediction store5 bare9Text).2 = some (failedRes 5) ∧
    lookupAssoc ((verifyPrediction store5 bare9Text).1).predictions 5 =
      some (failedEntry 5 (pendingPredAt 5)) ∧
    (failedEntry 5 (pendingPredAt 5)).status = PredStatus.failed := by decide

/-- C10: `resolve` is not read-only even when it returns none — on every
call whose message has a (nonzero) round number, each key of
`sent_predictions` missing from the prediction store is inserted, before
the scan, as a fresh pending Prediction with combination "unknown"; the
key is still present after the call, and when the call returns none the
inserted entry survives unchanged. -/
theorem C10_sync_effect (s : CardPredictor) (msg : Text) (e : Bool) (g : Nat)
    (hg : extractGameNumber msg = some g) (hg0 : g ≠ 0) (k : Nat)
    (hk : k ∈ s.sentPredictions) (hmiss : lookupAssoc s.predictions k = none) :
    lookupAssoc (syncedOf s) k = some unknownPending ∧
    (lookupAssoc ((verifyPredictionCommon s msg e).1).predictions k).isSome = true ∧
    ((verifyPredictionCommon s msg e).2 = none →
      lookupAssoc ((verifyPredictionCommon s msg e).1).predictions k =
        some unknownPending) := by
  have hsync : lookupAssoc (syncedOf s) k = some unknownPending :=
    syncSent_new _ _ _ hk hmiss
  rw [verifyCommon_eq s msg e g hg hg0]
  dsimp only
  refine ⟨hsync, ?_, ?_⟩
  · cases hres : (scanPredictions g msg e (predictionsToCheck s) (syncedOf s)).2 with
    | none =>
      rw [scan_none_eq g msg e _ _ hres, hsync]
      rfl
    | some res =>
      by_cases hkr : k = res.predictedGame
      · subst hkr
        rcases scan_some_shape g msg e _ _ _ hres with hsh | hsh <;>
          · rw [hsh]
            exact lookup_updAt_isSome _ _ _ (by rw [hsync]; rfl)
      · rw [scan_frame g msg e _ _ _ hres k hkr, hsync]
        rfl
  · intro hnone
    rw [scan_none_eq g msg e _ _ hnone]
    exact hsync

theorem C10_witness :
    lookupAssoc (syncedOf sentOnlyStore) 7 = some unknownPending ∧
    (lookupAssoc ((verifyPredictionCommon sentOnlyStore bare7Text true).1).predictions
        7).isSome = true ∧
    lookupAssoc ((verifyPredictionCommon sentOnlyStore bare7Text true).1).predictions 7 =
      some unknownPending := by
  have h := C10_sync_effect sentOnlyStore bare7Text true 7 (by decide) (by decide) 7
    (by decide) (by decide)
  exact ⟨h.1, h.2.1, h.2.2 (by decide)⟩

/-- C2 (as amended): if the store holds a pending Prediction for round
`R`, the edited message's round `g` lies in `[R, R+3]`, the message
carries a completion indicator, and — as the stop-at-first scan forces —
`R` is the lowest pending round of the post-synchronisation store, then a
first-section count ≥ 3 resolves exactly that Prediction to `correct`
with `verification_count = g - R` and the per-offset success glyph in the
new rendered text; with count < 3 the Prediction stays stored unchanged
(still pending). -/
theorem C2_amended (s : CardPredictor) (msg : Text) (R g : Nat) (p : Prediction)
    (hg : extractGameNumber msg = some g) (hg0 : g ≠ 0)
    (hpend : lookupAssoc s.predictions R = some p)
    (hst : p.status = PredStatus.pending)
    (hRg : R ≤ g) (hg3 : g ≤ R + 3)
    (hcomp : hasSuccessSymbol msg = true)
    (hmin : ∀ k q, lookupAssoc (syncedOf s) k = some q →
      q.status = PredStatus.pending → R ≤ k) :
    (3 ≤ countCardsInFirstParentheses msg →
      verifyPredictionCommon s msg true =
        ({ s with
            predictions :=
              insertAssoc (syncedOf s) R
                ({ p with
                   status := PredStatus.correct,
                   verificationCount := some (g - R),
                   finalMessage := some (renderStatus R (statusMap (g - R))) }) },
         some { predictedGame := R,
                newMessage := renderStatus R (statusMap (g - R)),
                originalMessage := renderPending R })) ∧
    (countCardsInFirstParentheses msg < 3 →
      lookupAssoc ((verifyPredictionCommon s msg true).1).predictions R = some p) := by
  have hsynR : lookupAssoc (syncedOf s) R = some p := syncSent_pres _ _ _ _ hpend
  have htn : (((g : Int) - (R : Int)).toNat) = g - R := by omega
  constructor
  · intro hcnt
    rw [verifyCommon_eq s msg true g hg hg0]
    have hskip : ∀ k ∈ predictionsToCheck s, k < R →
        statusAt (syncedOf s) k ≠ PredStatus.pending := by
      intro k hkmem hlt hpendk
      obtain ⟨q, hq⟩ := Option.isSome_iff_exists.mp
        (mem_predictionsToCheck_isSome s k hkmem)
      simp only [statusAt, hq] at hpendk
      exact absurd (hmin k q hq hpendk) (by omega)
    have hscan := scan_reach_correct g msg true R hRg hg3 hcomp rfl hcnt
      (predictionsToCheck s) (sorted_predictionsToCheck s) (syncedOf s)
      (lookup_synced_mem_predictionsToCheck s R p hsynR) hskip
      (by simp [statusAt, hsynR, hst])
    rw [hscan]
    simp only [updAt, hsynR, correctEntry, correctRes, htn, renderPending]
  · intro hcnt
    rw [verifyCommon_eq s msg true g hg hg0]
    dsimp only
    cases hres : (scanPredictions g msg true (predictionsToCheck s) (syncedOf s)).2 with
    | none =>
      rw [scan_none_eq g msg true _ _ hres]
      exact hsynR
    | some res =>
      have hne : R ≠ res.predictedGame := by
        intro he
        have hd := (scan_some_props g msg true _ _ _ hres).2.2
        rw [← he] at hd
        rcases hd with h4 | ⟨_, _, _, _, hc3⟩
        · omega
        · omega
      rw [scan_frame g msg true _ _ _ hres R hne]
      exact hsynR

/-- C2 counterexample: `doubleStore` holds pending Predictions for rounds
5 and 10; for `R = 10` every hypothesis of the claim as stated holds for
the edited message `confirm10Text` (delta 0, completion indicator,
first-section count 3), yet the call resolves round 5 (to failed) and
round 10 stays pending — the claim fails without the lowest-pending-round
side condition. -/
theorem C2_counterexample :
    extractGameNumber confirm10Text = some 10 ∧
    hasSuccessSymbol confirm10Text = true ∧
    countCardsInFirstParentheses confirm10Text = 3 ∧
    lookupAssoc doubleStore.predictions 10 = some (pendingPredAt 10) ∧
    (pendingPredAt 10).status = PredStatus.pending ∧
    (verifyPredictionCommon doubleStore confirm10Text true).2 = some (failedRes 5) ∧
    lookupAssoc ((verifyPredictionCommon doubleStore confirm10Text true).1).predictions
      10 = some (pendingPredAt 10) := by decide

theorem C2_witness :
    verifyPredictionCommon singleStore confirm745Text true =
      ({ singleStore with
          predictions :=
            insertAssoc (syncedOf singleStore) 745
              ({ pendingPred745 with
                 status := PredStatus.correct,
                 verificationCount := some 0,
                 finalMessage := some (renderStatus 745 (statusMap 0)) }) },
       some { predictedGame := 745,
              newMessage := renderStatus 745 (statusMap 0),
              originalMessage := renderPending 745 }) ∧
    lookupAssoc ((verifyPredictionCommon singleStore weak745Text true).1).predictions
      745 = some pendingPred745 := by
  have hmin1 : ∀ k q, lookupAssoc (syncedOf singleStore) k = some q →
      q.status = PredStatus.pending → 745 ≤ k := by
    intro k q hkq _
    simp only [syncedOf, singleStore, initialState, syncSent, lookupAssoc] at hkq
    by_cases hk : (745 : Nat) = k
    · omega
    · rw [if_neg hk] at hkq
      exact absurd hkq (by simp)
  constructor
  · exact (C2_amended singleStore confirm745Text 745 745 pendingPred745 (by decide)
      (by decide) (by decide) (by decide) (by decide) (by decide) (by decide) hmin1).1
      (by decide)
  · exact (C2_amended singleStore weak745Text 745 745 pendingPred745 (by decide)
      (by decide) (by decide) (by decide) (by decide) (by decide) (by decide) hmin1).2
      (by decide)

/-- C3 (as amended): a pending Prediction for round `R` that is the
lowest pending round of the post-synchronisation store is resolved to
`failed`, with the fixed ⭕⭕ glyphs in the new rendered text, by any
edited message whose round is at least `R + 4` — no condition on the
message's parentheses, indicators or symbol counts. -/
theorem C3_amended (s : CardPredictor) (msg : Text) (R g : Nat) (p : Prediction)
    (hg : extractGameNumber msg = some g)
    (hpend : lookupAssoc s.predictions R = some p)
    (hst : p.status = PredStatus.pending)
    (hg4 : R + 4 ≤ g)
    (hmin : ∀ k q, lookupAssoc (syncedOf s) k = some q →
      q.status = PredStatus.pending → R ≤ k) :
    verifyPredictionCommon s msg true =
      ({ s with
          predictions :=
            insertAssoc (syncedOf s) R
              ({ p with
                 status := PredStatus.failed,
                 finalMessage := some (renderStatus R failGlyphs) }) },
       some { predictedGame := R,
              newMessage := renderStatus R failGlyphs,
              originalMessage := renderPending R }) := by
  have hg0 : g ≠ 0 := by omega
  have hsynR : lookupAssoc (syncedOf s) R = some p := syncSent_pres _ _ _ _ hpend
  rw [verifyCommon_eq s msg true g hg hg0]
  have hskip : ∀ k ∈ predictionsToCheck s, k < R →
      statusAt (syncedOf s) k ≠ PredStatus.pending := by
    intro k hkmem hlt hpendk
    obtain ⟨q, hq⟩ := Option.isSome_iff_exists.mp
      (mem_predictionsToCheck_isSome s k hkmem)
    simp only [statusAt, hq] at hpendk
    exact absurd (hmin k q hq hpendk) (by omega)
  have hscan := scan_reach_failed g msg true R hg4
    (predictionsToCheck s) (sorted_predictionsToCheck s) (syncedOf s)
    (lookup_synced_mem_predictionsToCheck s R p hsynR) hskip
    (by simp [statusAt, hsynR, hst])
  rw [hscan]
  simp only [updAt, hsynR, failedEntry, failedRes, renderPending]

/-- C3 counterexample: in `doubleStore` (pending rounds 5 and 10), the
edited message `bare20Text` satisfies the claim as stated for `R = 10`
(20 ≥ 10 + 4), yet the call resolves round 5 and leaves round 10 pending
— the claim fails without the lowest-pending-round side condition. -/
theorem C3_counterexample :
    extractGameNumber bare20Text = some 20 ∧
    lookupAssoc doubleStore.predictions 10 = some (pendingPredAt 10) ∧
    (pendingPredAt 10).status = PredStatus.pending ∧
    (verifyPredictionCommon doubleStore bare20Text true).2 = some (failedRes 5) ∧
    lookupAssoc ((verifyPredictionCommon doubleStore bare20Text true).1).predictions
      10 = some (pendingPredAt 10) := by decide

theorem C3_witness :
    verifyPredictionCommon singleStore bare749Text true =
      ({ singleStore with
          predictions :=
            insertAssoc (syncedOf singleStore) 745
              ({ pendingPred745 with
                 status := PredStatus.failed,
                 finalMessage := some (renderStatus 745 failGlyphs) }) },
       some { predictedGame := 745,
              newMessage := renderStatus 745 failGlyphs,
              originalMessage := renderPending 745 }) := by
  have hmin1 : ∀ k q, lookupAssoc (syncedOf singleStore) k = some q →
      q.status = PredStatus.pending → 745 ≤ k := by
    intro k q hkq _
    simp only [syncedOf, singleStore, initialState, syncSent, lookupAssoc] at hkq
    by_cases hk : (745 : Nat) = k
    · omega
    · rw [if_neg hk] at hkq
      exact absurd hkq (by simp)
  exact C3_amended singleStore bare749Text 745 749 pendingPred745 (by decide)
    (by decide) (by decide) (by decide) hmin1

/-- C4: a single `resolve` call changes at most one entry: when it
returns none the post-scan store equals the synchronised store, and when
it returns a resolution only the resolved key differs, that key was
pending and satisfied a definitive condition (failure window or confirmed
success), and every lower-numbered pending key satisfied no definitive
condition — the ascending scan stops at the first definitive resolution
and merely skips in-window entries whose first-section count is
below 3. -/
theorem C4_resolution (s : CardPredictor) (msg : Text) (e : Bool) (g : Nat)
    (hg : extractGameNumber msg = some g) (hg0 : g ≠ 0) :
    ((verifyPredictionCommon s msg e).2 = none →
      ((verifyPredictionCommon s msg e).1).predictions = syncedOf s) ∧
    (∀ res, (verifyPredictionCommon s msg e).2 = some res →
      (∀ j, j ≠ res.predictedGame →
        lookupAssoc ((verifyPredictionCommon s msg e).1).predictions j =
          lookupAssoc (syncedOf s) j) ∧
      statusAt (syncedOf s) res.predictedGame = PredStatus.pending ∧
      definitiveAt g msg e res.predictedGame ∧
      (∀ k q, lookupAssoc (syncedOf s) k = some q →
        q.status = PredStatus.pending → k < res.predictedGame →
        ¬ definitiveAt g msg e k)) := by
  rw [verifyCommon_eq s msg e g hg hg0]
  dsimp only
  constructor
  · exact fun h => scan_none_eq g msg e _ _ h
  · intro res h
    refine ⟨fun j hj => scan_frame g msg e _ _ _ h j hj,
      (scan_some_props g msg e _ _ _ h).2.1,
      (scan_some_props g msg e _ _ _ h).2.2, ?_⟩
    intro k q hkq hq hlt
    exact scan_min g msg e (predictionsToCheck s) (sorted_predictionsToCheck s)
      (syncedOf s) res h k (lookup_synced_mem_predictionsToCheck s k q hkq) hlt
      (by simp [statusAt, hkq, hq])

theorem C4_witness :
    (verifyPredictionCommon doubleStore confirm10Text true).2 = some (failedRes 5) ∧
    lookupAssoc ((verifyPredictionCommon doubleStore confirm10Text true).1).predictions
        10 = lookupAssoc (syncedOf doubleStore) 10 ∧
    definitiveAt 10 confirm10Text true 5 :=
  ⟨by decide,
   ((C4_resolution doubleStore confirm10Text true 10 (by decide) (by decide)).2
     (failedRes 5) (by decide)).1 10 (by decide),
   ((C4_resolution doubleStore confirm10Text true 10 (by decide) (by decide)).2
     (failedRes 5) (by decide)).2.2.1⟩

/-- C8 (as amended): in every reachable state, every stored Prediction
that is `correct` has `verification_count` defined, and whenever
`verification_count` is defined its value lies in [0, 3]; the claim's
"defined only if correct" direction is false, since `make_prediction`
initialises `verification_count` to 0 on still-pending entries. -/
theorem C8_amended (s : CardPredictor) (h : Reachable s) (k : Nat) (p : Prediction)
    (hp : lookupAssoc s.predictions k = some p) :
    (p.status = PredStatus.correct → p.verificationCount.isSome = true) ∧
    p.verificationCount.getD 0 ≤ 3 :=
  reachable_predInv s h k p hp

/-- C8 counterexample: the reachable state `madeState` (one
`should_predict` trigger followed by `make_prediction`) stores a
Prediction that is still pending yet has `verification_count = 0`
defined, refuting the claimed "defined iff correct". -/
theorem C8_counterexample :
    Reachable madeState ∧
    lookupAssoc madeState.predictions 745 = some pendingPred745 ∧
    pendingPred745.status ≠ PredStatus.correct ∧
    pendingPred745.verificationCount = some 0 := by
  refine ⟨?_, by decide, by decide, by decide⟩
  exact Reachable.make initialState ((shouldPredict initialState tripleText).1)
    tripleText 744 comboSHD Reachable.init (by decide)

theorem C8_witness :
    correctPred745.verificationCount.isSome = true ∧
    correctPred745.verificationCount.getD 0 ≤ 3 := by
  have hre : Reachable verState :=
    Reachable.verify madeState confirm745Text true
      (Reachable.make initialState ((shouldPredict initialState tripleText).1)
        tripleText 744 comboSHD Reachable.init (by decide))
  have h := C8_amended verState hre 745 correctPred745 (by decide)
  exact ⟨h.1 (by decide), h.2⟩
